import Mathlib

/-!
Shallow embedding of the Veiss Comunicación service-worker controller
(`src/sw.js`), together with theorems checking the specification's claims.

Each definition mirrors one function of the source file.  JavaScript values
that may be `undefined` are modelled with `Option`; `RegExp` objects used as
path filters are modelled as boolean tests; response bodies are lists of
characters; network activity is modelled as an explicit oracle argument
(`Option Response` for a single fetch, `String → Option _` for keyed
fetches).  The two regex-driven text rewrites of the source
(`/src="(.*)(\?[0-9]+)*"/gi` and the `<iframe>` embed pattern) are modelled
by explicit scanners implementing the backtracking behaviour of those
patterns: a greedy `(.*)` followed by an optional group and a closing
delimiter matches up to the last closing delimiter in the same line.
Scanning loops whose progress is not structural take an explicit step-count
argument (`fuel`); the callers pass `length + 1`, which is enough for every
run because each step consumes at least one character.
-/

namespace SW

/- ## Configuration (sw.js lines 22-50) -/

/-- Mirror of the `cache` section of the editable `config` object plus the
optional fields read elsewhere (`maxItems`, `noCacheItems`,
`noCachePatterns`). `none` models a field that is absent (`undefined`). -/
structure CacheConfig where
  enabled : Bool
  maxItems : Option Nat
  noCacheItems : Option (List String)
  noCachePatterns : Option (List (String → Bool))

/-- Mirror of `config.prefetch`. -/
structure PrefetchConfig where
  enabled : Bool
  items : Option (List String)

/-- Mirror of `config.defer.images`. -/
structure DeferImagesConfig where
  color : List Char

/-- Mirror of `config.defer.youtube`. -/
structure DeferYoutubeConfig where
  enabled : Bool

/-- Mirror of `config.defer`. -/
structure DeferConfig where
  images : DeferImagesConfig
  youtube : DeferYoutubeConfig

/-- Mirror of `config.analytics`. -/
structure AnalyticsConfig where
  enabled : Bool
  maxTime : Int

/-- Mirror of the optional `config.offline` object (`page` is a URL looked up
in the caches, `image` is an inline SVG body). -/
structure OfflineConfig where
  page : Option String
  image : Option (List Char)

/-- Mirror of the editable `config` object of sw.js. -/
structure Config where
  cache : CacheConfig
  prefetch : PrefetchConfig
  defer : DeferConfig
  analytics : AnalyticsConfig
  offline : Option OfflineConfig
  saveDataItems : Option (List String)

/-- The default `config` value (sw.js lines 31-50). -/
def defaultConfig : Config :=
  { cache := { enabled := true, maxItems := none, noCacheItems := none, noCachePatterns := none }
  , prefetch := { enabled := true, items := none }
  , defer := { images := { color := "#D8D8D8".toList }, youtube := { enabled := true } }
  , analytics := { enabled := true, maxTime := 24 * 60 * 60 * 1000 }
  , offline := none
  , saveDataItems := none }

/-- Mirror of `globalConfig.version` (sw.js line 23). -/
def globalVersion : String := "v1.0.0"

/-- Mirror of `cacheName` (sw.js lines 260-262). -/
def cacheName (key : String) : String :=
  globalVersion ++ ":sw-cache::" ++ key

/- ## Responses and the cache store -/

/-- A stored/returned HTTP response snapshot: status, headers, body.
`new Response(body, { headers })` in JS yields status 200. -/
structure Response where
  status : Nat
  headers : List (String × String)
  body : List Char
deriving DecidableEq

/-- JS `Response.ok`: status in the range 200-299. -/
def Response.ok (r : Response) : Bool :=
  200 ≤ r.status && r.status ≤ 299

/-- The cache storage: entries keyed by (namespace, request URL), kept in
insertion order (new keys are appended, existing keys updated in place). -/
abbrev CacheMap := List ((String × String) × Response)

/-- Mirror of `cache.put(request, copy)` on the cache opened under namespace `ns`. -/
def cachePut : CacheMap → String → String → Response → CacheMap
  | [], ns, url, r => [((ns, url), r)]
  | e :: rest, ns, url, r =>
    if e.1 = (ns, url) then ((ns, url), r) :: rest else e :: cachePut rest ns url r

/-- Exact lookup of the entry stored under namespace `ns` for URL `url`. -/
def cacheGet : CacheMap → String → String → Option Response
  | [], _, _ => none
  | e :: rest, ns, url => if e.1 = (ns, url) then some e.2 else cacheGet rest ns url

/-- Mirror of `caches.match(request)`: looks the request URL up across every cache
namespace (sw.js line 312). -/
def cacheMatchUrl : CacheMap → String → Option Response
  | [], _ => none
  | e :: rest, url => if e.1.2 = url then some e.2 else cacheMatchUrl rest url

/-- Mirror of `addToCache` (sw.js lines 242-251): stores the response under
the cache key only when `response.ok` and caching is enabled, and always
returns the response itself. -/
def addToCache (cfg : Config) (cacheKey url : String) (response : Response)
    (c : CacheMap) : Response × CacheMap :=
  if response.ok && cfg.cache.enabled then (response, cachePut c cacheKey url response)
  else (response, c)

/- ## Cache trimming (sw.js lines 527-559) -/

/-- Mirror of `trimCache` (sw.js lines 546-559).  The source reads
`config.cache.maxItems` from the live config; `trimCaches` only invokes it
when that value is a non-zero number, passed here as `maxItems`.  Each
recursion step deletes `keys[0]` (the oldest-inserted key) and re-checks. -/
def trimCache (maxItems : Nat) : List String → List String
  | [] => []
  | k :: ks => if (k :: ks).length ≤ maxItems then k :: ks else trimCache maxItems ks

/-- Mirror of `trimCaches` (sw.js lines 527-539): a no-op unless
`config.cache.enabled` and `config.cache.maxItems` are both truthy
(`undefined` and `0` are falsy), otherwise trims every cache namespace.
The caches are modelled as named lists of keys in insertion order. -/
def trimCaches (cfg : Config) (cachesKeys : List (String × List String)) :
    List (String × List String) :=
  match cfg.cache.maxItems with
  | none => cachesKeys
  | some m =>
    if cfg.cache.enabled && !(m == 0) then
      cachesKeys.map (fun nk => (nk.1, trimCache m nk.2))
    else cachesKeys

/- ## Fetch eligibility (sw.js lines 112-136) -/

/-- The parts of an intercepted request that `shouldHandleFetch` reads. -/
structure FetchRequest where
  pathname : String
  method : String
  origin : String

/-- Mirror of `shouldHandleFetch` (sw.js lines 112-136): builds the criteria
map and succeeds exactly when no criterion fails.  The pattern and item
criteria are only added when the corresponding config field is present. -/
def shouldHandleFetch (cfg : Config) (selfOrigin : String) (req : FetchRequest) : Bool :=
  let isSWjs := !("sw.min.js" == req.pathname)
  let isGETRequest := "GET" == req.method
  let isFromMyOrigin := req.origin == selfOrigin
  let matchesPathPattern :=
    match cfg.cache.noCachePatterns with
    | some pats => !(pats.any (fun p => p req.pathname))
    | none => true
  let isNoCacheItem :=
    match cfg.cache.noCacheItems with
    | some items => !(items.contains req.pathname)
    | none => true
  isSWjs && isGETRequest && isFromMyOrigin && matchesPathPattern && isNoCacheItem

/- ## Durable analytics retry queue (sw.js lines 447-472, 515-522) -/

/-- A record of the durable analytics retry store: `{url, timestamp}`. -/
structure RetryRecord where
  url : String
  timestamp : Int
deriving DecidableEq

/-- What replaying one record did: whether it was deleted from the store and
which network request (if any) was issued. -/
structure ReplayOutcome where
  deleted : Bool
  request : Option String
deriving DecidableEq

/-- Mirror of the per-record body of `retryAnalyticsRequests`
(sw.js lines 449-470).  `net` models `fetch`: `some status` is a resolved
response with that status, `none` a rejected fetch.  The record is deleted
without any request when its age is strictly greater than
`config.analytics.maxTime`; otherwise a request with `&qt=` appended is
issued and the record is deleted exactly when the response status is
below 400. -/
def processRetryRecord (cfg : Config) (now : Int) (net : String → Option Nat)
    (record : RetryRecord) : ReplayOutcome :=
  let queueTime := now - record.timestamp
  if queueTime > cfg.analytics.maxTime then
    { deleted := true, request := none }
  else
    let requestUrl := record.url ++ "&qt=" ++ toString queueTime
    match net requestUrl with
    | some status =>
      if 400 ≤ status then { deleted := false, request := some requestUrl }
      else { deleted := true, request := some requestUrl }
    | none => { deleted := false, request := some requestUrl }

/-- Mirror of `retryAnalyticsRequests` (sw.js lines 447-472): iterates every
stored record and processes each one independently. -/
def retryAnalyticsRequests (cfg : Config) (now : Int) (net : String → Option Nat)
    (records : List RetryRecord) : List (RetryRecord × ReplayOutcome) :=
  records.map (fun record => (record, processRetryRecord cfg now net record))

/-- Mirror of `store` (sw.js lines 515-522): adds `{url, timestamp: now}` to
the durable store.  `IDBObjectStore.add` with `keyPath: 'url'` fails silently
when the key already exists, leaving the store unchanged. -/
def store (now : Int) (url : String) (records : List RetryRecord) : List RetryRecord :=
  if records.any (fun record => record.url == url) then records
  else records ++ [{ url := url, timestamp := now }]

/- ## JavaScript values and the deep merge (sw.js lines 341-369) -/

/-- A JavaScript value as far as `mergeDeep`/`isObject` can observe it:
`null`, booleans, numbers, strings, arrays and plain objects (ordered
key/value lists; JS objects enumerate string keys in insertion order). -/
inductive JSVal where
  | vNull
  | vBool (b : Bool)
  | vNum (n : Int)
  | vStr (s : String)
  | vArr (elems : List JSVal)
  | vObj (fields : List (String × JSVal))

/-- JS truthiness of a value (`[]` and `{}` are truthy). -/
def truthy : JSVal → Bool
  | .vNull => false
  | .vBool b => b
  | .vNum n => n != 0
  | .vStr s => s != ""
  | .vArr _ => true
  | .vObj _ => true

/-- Mirror of `isObject` (sw.js lines 341-343): truthy, of type `object`,
not an array, not `null` — exactly the plain objects. -/
def isObject : JSVal → Bool
  | .vObj _ => true
  | _ => false

/-- Reading `target[key]` on an object's field list. -/
def lookupField : List (String × JSVal) → String → Option JSVal
  | [], _ => none
  | (k, v) :: rest, key => if k = key then some v else lookupField rest key

/-- Mirror of `Object.assign(target, ...)` with a one-key object: updates the key in place when
present (keeping its position), appends it otherwise. -/
def setField : List (String × JSVal) → String → JSVal → List (String × JSVal)
  | [], key, v => [(key, v)]
  | (k, w) :: rest, key, v =>
    if k = key then (k, v) :: rest else (k, w) :: setField rest key v

mutual

/-- Mirror of `mergeDeep` (sw.js lines 353-369): when both arguments are
plain objects, fold every key of `source` into `target`; otherwise return
`target` unchanged.  Per key: an object-valued source entry is merged
recursively into `target[key]` (after resetting a falsy or absent
`target[key]` to `{}`; merging into a truthy non-object mutates nothing, so
the target value is kept); any other source value replaces the target's. -/
def mergeDeep (target source : JSVal) : JSVal :=
  match target, source with
  | .vObj tf, .vObj sf => .vObj (mergeFields tf sf)
  | t, _ => t
termination_by sizeOf source

/-- The `Object.keys(source).forEach` loop of `mergeDeep`, one key at a
time, left to right. -/
def mergeFields (tf : List (String × JSVal)) (sf : List (String × JSVal)) :
    List (String × JSVal) :=
  match sf with
  | [] => tf
  | (k, sv) :: rest =>
    mergeFields
      (if isObject sv then
        match lookupField tf k with
        | some tv =>
          if truthy tv then setField tf k (mergeDeep tv sv)
          else setField tf k (mergeDeep (.vObj []) sv)
        | none => setField tf k (mergeDeep (.vObj []) sv)
      else setField tf k sv) rest
termination_by sizeOf sf

end

/-- The effect of one `mergeDeep` loop iteration on the value at the key:
the new value as a function of the old (`none` = key absent) and the source
value. -/
def mergeVal (tv : Option JSVal) (sv : JSVal) : JSVal :=
  if isObject sv then
    match tv with
    | some t => if truthy t then mergeDeep t sv else mergeDeep (.vObj []) sv
    | none => mergeDeep (.vObj []) sv
  else sv

/-- One `mergeDeep` loop iteration as a field-list update. -/
def mergeKey (tf : List (String × JSVal)) (k : String) (sv : JSVal) :
    List (String × JSVal) :=
  setField tf k (mergeVal (lookupField tf k) sv)

/-- JS object keys are unique at each level; `keysNodupB` checks one level. -/
def keysNodupB : List (String × JSVal) → Bool
  | [] => true
  | (k, _) :: rest => !(rest.any (fun kv => kv.1 == k)) && keysNodupB rest

mutual

/-- Well-formedness of a value as a JS runtime value: object keys are
unique at every nesting level. -/
def wfVal : JSVal → Bool
  | .vObj fs => keysNodupB fs && wfFields fs
  | _ => true

/-- Well-formedness of every value in a field list. -/
def wfFields : List (String × JSVal) → Bool
  | [] => true
  | kv :: rest => wfVal kv.2 && wfFields rest

end

/- ## Text scanning primitives for the rewriting pipeline -/

/-- Does `s` start with `pat` (exact characters)? -/
def listStartsWith : List Char → List Char → Bool
  | _, [] => true
  | [], _ :: _ => false
  | c :: cs, p :: ps => c == p && listStartsWith cs ps

/-- Does `s` start with `pat`, ignoring ASCII case (for the `i` regex flag)? -/
def ciStartsWith : List Char → List Char → Bool
  | _, [] => true
  | [], _ :: _ => false
  | c :: cs, p :: ps => (c.toLower == p.toLower) && ciStartsWith cs ps

/-- First index at which `pat` occurs in `s`, counting from `i`. -/
def idxOfFrom : List Char → List Char → Nat → Option Nat
  | [], pat, i => if pat.isEmpty then some i else none
  | s@(_ :: cs), pat, i => if listStartsWith s pat then some i else idxOfFrom cs pat (i + 1)

/-- JS `String.indexOf`, with `none` for `-1`. -/
def jsIndexOf (s pat : List Char) : Option Nat := idxOfFrom s pat 0

/-- JS `String.indexOf` with its literal `-1` missing-value. -/
def jsIndexOfInt (s pat : List Char) : Int :=
  match jsIndexOf s pat with
  | some i => (i : Int)
  | none => -1

/-- JS `String.substr(start, length)`: a negative start counts from the end,
the length is clipped to the string. -/
def jsSubstr (s : List Char) (start len : Int) : List Char :=
  let n : Int := s.length
  let b := if start < 0 then max (n + start) 0 else min start n
  let l := max (min len (n - b)) 0
  (s.drop b.toNat).take l.toNat

/-- Mirror of `getTextPart` (sw.js lines 614-619): the substring from the
first occurrence of `start` through the first occurrence of `en` after it
(inclusive), with JS's `indexOf`/`substr` conventions for missing parts. -/
def getTextPart (text start en : List Char) : List Char :=
  let t1 := jsSubstr text (jsIndexOfInt text start) text.length
  jsSubstr t1 0 (jsIndexOfInt t1 en + 1)

/-- JS `-1 < s.indexOf(pat)` substring test. -/
def containsSub (s pat : List Char) : Bool := (jsIndexOf s pat).isSome

/-- JS `String.replace` with a plain string pattern: replaces the first
occurrence only (the replacements used by the source contain no `$`
patterns). -/
def replaceFirst (s pat repl : List Char) : List Char :=
  match jsIndexOf s pat with
  | none => s
  | some i => s.take i ++ repl ++ s.drop (i + pat.length)

/-- Index of the last occurrence of a character. -/
def lastIdxOf (ch : Char) : List Char → Option Nat
  | [] => none
  | c :: cs =>
    match lastIdxOf ch cs with
    | some i => some (i + 1)
    | none => if c == ch then some 0 else none

/-- Characters matched by the regex `.` (everything but line terminators). -/
def isDotChar (c : Char) : Bool :=
  !(c == '\n' || c == '\r' || c == ' ' || c == ' ')

/- ## Image deferral (sw.js lines 568-633) -/

/-- The base64 alphabet used by `btoa`. -/
def base64Table : List Char :=
  "ABCDEFGHIJKLMNOPQRSTUVWXYZabcdefghijklmnopqrstuvwxyz0123456789+/".toList

/-- One base64 digit. -/
def b64At (i : Nat) : Char := base64Table.getD i '='

/-- JS `btoa` over latin-1 character codes (the SVG text is ASCII). -/
def btoa : List Char → List Char
  | [] => []
  | [a] =>
    let n := a.toNat
    [b64At (n / 4), b64At (n % 4 * 16), '=', '=']
  | [a, b] =>
    let n := a.toNat * 256 + b.toNat
    [b64At (n / 1024), b64At (n / 16 % 64), b64At (n % 16 * 4), '=']
  | a :: b :: c :: rest =>
    let n := a.toNat * 65536 + b.toNat * 256 + c.toNat
    b64At (n / 262144) :: b64At (n / 4096 % 64) :: b64At (n / 64 % 64) :: b64At (n % 64)
      :: btoa rest

/-- Mirror of `newBase64Image` (sw.js lines 629-633): an inline SVG of the
given width/height filled with `config.defer.images.color`, as a base64
data URI. -/
def newBase64Image (cfg : Config) (width height : List Char) : List Char :=
  let element :=
    "<svg role=\"img\" aria-labelledby=\"offline-title\" viewBox=\"0 0 ".toList
    ++ width ++ [' '] ++ height
    ++ "\" xmlns=\"http://www.w3.org/2000/svg\"><g fill=\"none\" fill-rule=\"evenodd\"><path fill=\"".toList
    ++ cfg.defer.images.color
    ++ "\" d=\"M0 0h".toList ++ width ++ ['v'] ++ height ++ "H0z\"/></g></svg>".toList
  "data:image/svg+xml;base64,".toList ++ btoa element

/-- The literal part of the regexes `/width="(\d+)"/` and `/height="(\d+)"/`. -/
def widthPat : List Char := "width=\"".toList

/-- See `widthPat`. -/
def heightPat : List Char := "height=\"".toList

/-- JS `image.match(/attr="(\d+)"/)`: scan left to right for the literal
followed by one or more digits and a closing quote; return the digits.
(The digit run is maximal; backtracking cannot help because a digit can
never match the closing quote.) -/
def matchAttrNum (pat : List Char) : List Char → Option (List Char)
  | [] => none
  | s@(_ :: rest) =>
    if listStartsWith s pat then
      let after := s.drop pat.length
      let ds := after.takeWhile Char.isDigit
      if ds.isEmpty then matchAttrNum pat rest
      else
        match after.drop ds.length with
        | '"' :: _ => some ds
        | _ => matchAttrNum pat rest
    else matchAttrNum pat rest

/-- The literal part of `/src="(.*)(\?[0-9]+)*"/gi`. -/
def srcLit : List Char := "src=\"".toList

/-- The middle of the `setImage` replacement template. -/
def deferSrcLit : List Char := "\" data-defer-src=\"".toList

/-- The global replace of `/src="(.*)(\?[0-9]+)*"/gi` by
`src="B" data-defer-src="$1"` (sw.js line 602).  At each case-insensitive
`src="`, the greedy `(.*)` (which cannot cross a line terminator) makes the
match end at the LAST quote of the line segment, with `$1` everything in
between; scanning continues after the match. -/
def srcReplaceGo (b64 : List Char) : Nat → List Char → List Char
  | 0, s => s
  | _ + 1, [] => []
  | fuel + 1, s@(c :: rest) =>
    if ciStartsWith s srcLit then
      let after := s.drop 5
      let seg := after.takeWhile isDotChar
      match lastIdxOf '"' seg with
      | some q =>
        srcLit ++ b64 ++ deferSrcLit ++ seg.take q
          ++ '"' :: srcReplaceGo b64 fuel (after.drop (q + 1))
      | none => c :: srcReplaceGo b64 fuel rest
    else c :: srcReplaceGo b64 fuel rest

/-- See `srcReplaceGo`; each step consumes at least one character, so
`length + 1` steps always finish the scan. -/
def srcReplace (b64 s : List Char) : List Char := srcReplaceGo b64 (s.length + 1) s

/-- Mirror of `setImage` (sw.js lines 594-603): capture the `width="…"` and
`height="…"` digits; if either is missing return the element unchanged,
otherwise rewrite every `src="…"` to the placeholder plus
`data-defer-src`. -/
def setImage (cfg : Config) (image : List Char) : List Char :=
  match matchAttrNum widthPat image, matchAttrNum heightPat image with
  | some w, some h => srcReplace (newBase64Image cfg w h) image
  | _, _ => image

/-- The literal `'<img'` (sw.js line 570). -/
def imgOpenLit : List Char := "<img".toList

/-- The literal `'>'`. -/
def gtLit : List Char := ">".toList

/-- The literal `'data-defer'` (sw.js line 575). -/
def deferMarkLit : List Char := "data-defer".toList

/-- Mirror of the `changeImages` while-loop (sw.js lines 568-585): find each
`<img` tag in `cloned`, rewrite it in `html` when it carries the
`data-defer` marker, then continue scanning just past it.  `oldImage` is
always a substring of `cloned` (it is produced by `getTextPart`), so each
step drops at least one character; the fuel `length + 1` covers every
run. -/
def changeImagesGo (cfg : Config) : Nat → List Char → List Char → List Char
  | 0, html, _ => html
  | fuel + 1, html, cloned =>
    match jsIndexOf cloned imgOpenLit with
    | none => html
    | some _ =>
      let oldImage := getTextPart cloned imgOpenLit gtLit
      let html2 :=
        if containsSub oldImage deferMarkLit
        then replaceFirst html oldImage (setImage cfg oldImage)
        else html
      match jsIndexOf cloned oldImage with
      | none => html2
      | some i => changeImagesGo cfg fuel html2 (cloned.drop (i + 1))

/-- Mirror of `changeImages` (sw.js lines 568-585). -/
def changeImages (cfg : Config) (html : List Char) : List Char :=
  changeImagesGo cfg (html.length + 1) html html

/- ## YouTube deferral (sw.js lines 290-302) -/

/-- The literal `'<iframe '`, the head of the iframe embed pattern. -/
def iframeLit : List Char := "<iframe ".toList

/-- The literal `' src="https://www.youtube.com/embed/'`, the middle of the
pattern (the regex's unescaped dots are modelled as the literal dot). -/
def ytEmbedLit : List Char := " src=\"https://www.youtube.com/embed/".toList

/-- The literal `'></iframe>'`, the tail of the pattern. -/
def ytCloseLit : List Char := "></iframe>".toList

/-- The literal `'" '` after the video id. -/
def quoteSpaceLit : List Char := "\" ".toList

/-- Characters of the video-id class `[a-z0-9\-]` under the `i` flag. -/
def ytIdChar (c : Char) : Bool := c.isAlphanum || c == '-'

/-- All positions of `seg` (in descending order) at which `lit` matches
case-insensitively; descending order realises the greedy `(.*)` backtracking
of the regex (largest split tried first). -/
def ciMatchPosDesc (lit seg : List Char) : List Nat :=
  ((List.range (seg.length + 1)).filter (fun j => ciStartsWith (seg.drop j) lit)).reverse

/-- First result of `f` over a list. -/
def firstSome {α β : Type} (f : α → Option β) : List α → Option β
  | [] => none
  | a :: rest =>
    match f a with
    | some b => some b
    | none => firstSome f rest

/-- Matching of the iframe pattern's remainder inside one line segment:
greedy `(.*)` then `ytEmbedLit`, a nonempty id, `'" '`, greedy `(.*)`, and
`'></iframe>'` (the last occurrence).  Returns the three capture groups and
how many characters of `seg` the match consumed. -/
def ytMatchSeg (seg : List Char) : Option (List Char × List Char × List Char × Nat) :=
  firstSome (fun j =>
    let after := seg.drop (j + ytEmbedLit.length)
    let idPart := after.takeWhile ytIdChar
    if idPart.isEmpty then none
    else
      let rest2 := after.drop idPart.length
      if listStartsWith rest2 quoteSpaceLit then
        let rest3 := rest2.drop 2
        match (ciMatchPosDesc ytCloseLit rest3).head? with
        | some m =>
          some (seg.take j, idPart, rest3.take m,
            j + ytEmbedLit.length + idPart.length + 2 + m + ytCloseLit.length)
        | none => none
      else none)
    (ciMatchPosDesc ytEmbedLit seg)

/-- The replacement template of `deferYoutubeVideos` (sw.js line 295) with
the three capture groups substituted. -/
def ytBuild (g1 vid g3 : List Char) : List Char :=
  "<div style=\"overflow:hidden;padding-top:56.25%;position:relative;\"><iframe style=\"border:0;height:100%;left:0;position:absolute;top:0;width:100%;\" ".toList
  ++ g1
  ++ " src=\"https://www.youtube.com/embed/".toList
  ++ vid
  ++ "\" srcdoc=\"<style>*\x7bpadding:0;margin:0;overflow:hidden\x7dhtml,body\x7bheight:100%\x7dimg,span\x7bposition:absolute;width:100%;top:0;bottom:0;margin:auto\x7dspan\x7bheight:1.5em;text-align:center;font:48px/1.5 sans-serif;color:white;text-shadow:0 0 0.5em black\x7d</style><a href=https://www.youtube.com/embed/".toList
  ++ vid
  ++ "?autoplay=1><img src=https://img.youtube.com/vi/".toList
  ++ vid
  ++ "/hqdefault.jpg><span>▶</span></a>\" ".toList
  ++ g3
  ++ "></iframe></div>".toList

/-- The global iframe-embed replace of `deferYoutubeVideos` (sw.js line
295), scanning left to right and continuing after each replacement. -/
def ytReplaceGo : Nat → List Char → List Char
  | 0, s => s
  | _ + 1, [] => []
  | fuel + 1, s@(c :: rest) =>
    if ciStartsWith s iframeLit then
      let after := s.drop iframeLit.length
      let seg := after.takeWhile isDotChar
      match ytMatchSeg seg with
      | some (g1, vid, g3, endIdx) => ytBuild g1 vid g3 ++ ytReplaceGo fuel (after.drop endIdx)
      | none => c :: ytReplaceGo fuel rest
    else c :: ytReplaceGo fuel rest

/-- See `ytReplaceGo`; `length + 1` steps always finish the scan. -/
def ytReplace (s : List Char) : List Char := ytReplaceGo (s.length + 1) s

/- ## The rewriting stages as response transformers -/

/-- Mirror of `deferImages` (sw.js lines 271-281): rewrite the body and
rebuild the response with `new Response(body, { headers })` — which has
status 200 whatever the input status was. -/
def deferImages (cfg : Config) (response : Response) : Response :=
  { status := 200, headers := response.headers, body := changeImages cfg response.body }

/-- Mirror of `deferYoutubeVideos` (sw.js lines 290-302): rewrite the iframe
embeds when `config.defer.youtube.enabled`, and rebuild the response with
`new Response(body, { headers })` — status 200 again. -/
def deferYoutubeVideos (cfg : Config) (response : Response) : Response :=
  { status := 200, headers := response.headers,
    body := if cfg.defer.youtube.enabled then ytReplace response.body else response.body }

/- ## The fetch flows (sw.js lines 138-171, 378-401, 431-442) -/

/-- The resource classes of `doFetch`. -/
inductive ResourceType where
  | content
  | image
  | static
deriving DecidableEq

/-- The cache-namespace name of a resource class. -/
def resourceClassName : ResourceType → String
  | .content => "content"
  | .image => "image"
  | .static => "static"

/-- The classification of `doFetch` (sw.js lines 144-148): an Accept header
containing `text/html` is `content`, else one containing `image` is
`image`, else `static`. -/
def classifyResource (accept : List Char) : ResourceType :=
  if containsSub accept "text/html".toList then .content
  else if containsSub accept "image".toList then .image
  else .static

/-- The outcome of one eligible fetch: the response given to the page, the
cache contents afterwards, and whether a network request was issued. -/
structure FlowResult where
  response : Option Response
  cache : CacheMap
  networkUsed : Bool
deriving DecidableEq

/-- Mirror of `offlineResponse` (sw.js lines 378-401): `undefined` without
an `offline` config; an inline SVG response for images; a cache lookup of
the configured page for content; `undefined` for static. -/
def offlineResponse (cfg : Config) (rt : ResourceType) (c : CacheMap) : Option Response :=
  match cfg.offline with
  | none => none
  | some off =>
    match rt with
    | .image =>
      match off.image with
      | some svg =>
        some { status := 200, headers := [("Content-Type", "image/svg+xml")], body := svg }
      | none => none
    | .content =>
      match off.page with
      | some page => cacheMatchUrl c page
      | none => none
    | .static => none

/-- The `content` arm of `doFetch` (sw.js lines 152-161): network first;
on success pipe through `deferImages` then `deferYoutubeVideos`, then
`addToCache`; on network failure fall back to the cache, then to the
offline page. -/
def contentFlow (cfg : Config) (net : Option Response) (url : String) (c : CacheMap) :
    FlowResult :=
  match net with
  | some r =>
    let rewritten := deferYoutubeVideos cfg (deferImages cfg r)
    let pair := addToCache cfg (cacheName "content") url rewritten c
    { response := some pair.1, cache := pair.2, networkUsed := true }
  | none =>
    match cacheMatchUrl c url with
    | some cached => { response := some cached, cache := c, networkUsed := true }
    | none => { response := offlineResponse cfg .content c, cache := c, networkUsed := true }

/-- The default arm of `doFetch` (sw.js lines 162-169): cache first; on a
hit the cached response is returned (and passed through `addToCache`)
without touching the network; on a miss fetch and store; on total failure
fall back to the offline substitute. -/
def defaultFlow (cfg : Config) (rt : ResourceType) (net : Option Response) (url : String)
    (c : CacheMap) : FlowResult :=
  match cacheMatchUrl c url with
  | some cached =>
    let pair := addToCache cfg (cacheName (resourceClassName rt)) url cached c
    { response := some pair.1, cache := pair.2, networkUsed := false }
  | none =>
    match net with
    | some r =>
      let pair := addToCache cfg (cacheName (resourceClassName rt)) url r c
      { response := some pair.1, cache := pair.2, networkUsed := true }
    | none => { response := offlineResponse cfg rt c, cache := c, networkUsed := true }

/-- Mirror of `doFetch` (sw.js lines 138-171): classify by Accept header and
dispatch to the content or the default flow. -/
def doFetch (cfg : Config) (accept : List Char) (net : Option Response) (url : String)
    (c : CacheMap) : FlowResult :=
  match classifyResource accept with
  | .content => contentFlow cfg net url c
  | rt => defaultFlow cfg rt net url c

/-- Mirror of `prefetch` (sw.js lines 431-442): when prefetching is enabled,
fetch each URL and pass the outcome to `addToCache` under the `content`
namespace (a failed fetch stores nothing). -/
def prefetch (cfg : Config) (net : String → Option Response) (urls : List String)
    (c : CacheMap) : CacheMap :=
  if cfg.prefetch.enabled then
    urls.foldl (fun acc url =>
      match net url with
      | some r => (addToCache cfg (cacheName "content") url r acc).2
      | none => acc) c
  else c

/-- All responses stored in the cache are successful. -/
def CacheAllOk (c : CacheMap) : Prop := ∀ e ∈ c, e.2.ok = true

/- ## Helper lemmas -/

/-- Helper: `List.contains` on strings decides membership. -/
theorem contains_true_iff (l : List String) (a : String) :
    l.contains a = true ↔ a ∈ l := by
  simp [List.contains, List.elem_iff]

/-- Helper: `addToCache` returns its response argument unchanged. -/
theorem addToCache_fst (cfg : Config) (k u : String) (r : Response) (c : CacheMap) :
    (addToCache cfg k u r c).1 = r := by
  unfold addToCache
  split <;> rfl

/-- Helper: a fresh `cachePut` entry is found by `cacheGet` at its key. -/
theorem cacheGet_cachePut_self (c : CacheMap) (ns url : String) (r : Response) :
    cacheGet (cachePut c ns url r) ns url = some r := by
  induction c with
  | nil => simp [cachePut, cacheGet]
  | cons e rest ih =>
    by_cases h : e.1 = (ns, url)
    · simp [cachePut, cacheGet, h]
    · simp [cachePut, cacheGet, h, ih]

/-- Helper: entries of `cachePut c ns url r` come from `c` or are the new
entry. -/
theorem cachePut_mem (c : CacheMap) (ns url : String) (r : Response)
    (e : (String × String) × Response) (he : e ∈ cachePut c ns url r) :
    e ∈ c ∨ e = ((ns, url), r) := by
  induction c with
  | nil =>
    simp [cachePut] at he
    exact Or.inr he
  | cons e2 rest ih =>
    by_cases h : e2.1 = (ns, url)
    · simp [cachePut, h] at he
      rcases he with he | he
      · exact Or.inr (by simp [he])
      · exact Or.inl (List.mem_cons_of_mem _ he)
    · simp [cachePut, h] at he
      rcases he with he | he
      · exact Or.inl (by simp [he])
      · rcases ih he with hm | hm
        · exact Or.inl (List.mem_cons_of_mem _ hm)
        · exact Or.inr hm

/-- Helper: `addToCache` with a non-ok response leaves the cache unchanged. -/
theorem addToCache_not_ok (cfg : Config) (k u : String) (r : Response) (c : CacheMap)
    (h : r.ok = false) : (addToCache cfg k u r c).2 = c := by
  simp [addToCache, h]

/-- Helper: `addToCache` preserves the all-ok cache invariant. -/
theorem addToCache_preserves (cfg : Config) (k u : String) (r : Response) (c : CacheMap)
    (h : CacheAllOk c) : CacheAllOk (addToCache cfg k u r c).2 := by
  unfold addToCache
  by_cases hg : (r.ok && cfg.cache.enabled) = true
  · rw [if_pos hg]
    intro e he
    rcases cachePut_mem c k u r e he with hm | hm
    · exact h e hm
    · rw [hm]
      exact (Bool.and_eq_true _ _).mp hg |>.1
  · rw [if_neg hg]
    exact h

/-- Helper: the rewritten response of the content pipeline always has
status 200, hence is ok. -/
theorem rewritten_ok (cfg : Config) (r : Response) :
    (deferYoutubeVideos cfg (deferImages cfg r)).ok = true := rfl

/- ## Claim C1 -/

/-- Claim C1: for a request classified `content` whose network fetch
succeeds (with caching enabled), the flow pipes the body through the
image-defer pass and then the video-defer pass, and the entry stored in the
`content` cache namespace equals the rewritten response
`deferYoutubeVideos (deferImages r)` — also the response returned — not the
raw network response. -/
theorem claim_C1 (cfg : Config) (accept : List Char) (r : Response) (url : String)
    (c : CacheMap) (hclass : classifyResource accept = ResourceType.content)
    (hen : cfg.cache.enabled = true) :
    cacheGet (doFetch cfg accept (some r) url c).cache (cacheName "content") url
        = some (deferYoutubeVideos cfg (deferImages cfg r))
    ∧ (doFetch cfg accept (some r) url c).response
        = some (deferYoutubeVideos cfg (deferImages cfg r)) := by
  have hd : doFetch cfg accept (some r) url c = contentFlow cfg (some r) url c := by
    unfold doFetch
    rw [hclass]
  rw [hd]
  unfold contentFlow
  have hok := rewritten_ok cfg r
  simp only [addToCache, hok, hen, Bool.and_self, if_true]
  exact ⟨cacheGet_cachePut_self c (cacheName "content") url _, trivial⟩

/-- Witness for claim C1 on a concrete HTML request with an empty body. -/
theorem claim_C1_witness :
    cacheGet (doFetch defaultConfig "text/html".toList
        (some { status := 200, headers := [], body := [] }) "u" []).cache
        (cacheName "content") "u"
      = some (deferYoutubeVideos defaultConfig
          (deferImages defaultConfig { status := 200, headers := [], body := [] }))
    ∧ (doFetch defaultConfig "text/html".toList
        (some { status := 200, headers := [], body := [] }) "u" []).response
      = some (deferYoutubeVideos defaultConfig
          (deferImages defaultConfig { status := 200, headers := [], body := [] })) :=
  claim_C1 defaultConfig "text/html".toList { status := 200, headers := [], body := [] }
    "u" [] (by decide) rfl

/- ## Claim C2 -/

/-- Claim C2: for a request classified `image` or `static` with an existing
cache entry, the flow answers with that cached entry and issues no network
request — whatever the network oracle would do (including failure). -/
theorem claim_C2 (cfg : Config) (accept : List Char) (net : Option Response) (url : String)
    (c : CacheMap) (cached : Response)
    (hclass : classifyResource accept ≠ ResourceType.content)
    (hhit : cacheMatchUrl c url = some cached) :
    (doFetch cfg accept net url c).response = some cached
    ∧ (doFetch cfg accept net url c).networkUsed = false := by
  cases hcl : classifyResource accept with
  | content => exact absurd hcl hclass
  | image =>
    have hd : doFetch cfg accept net url c = defaultFlow cfg .image net url c := by
      unfold doFetch
      rw [hcl]
    rw [hd]
    unfold defaultFlow
    rw [hhit]
    exact ⟨congrArg some (addToCache_fst cfg _ url cached c), rfl⟩
  | static =>
    have hd : doFetch cfg accept net url c = defaultFlow cfg .static net url c := by
      unfold doFetch
      rw [hcl]
    rw [hd]
    unfold defaultFlow
    rw [hhit]
    exact ⟨congrArg some (addToCache_fst cfg _ url cached c), rfl⟩

/-- Witness for claim C2: a cached image served while the network fails. -/
theorem claim_C2_witness :
    (doFetch defaultConfig "image/png".toList none "u"
        [((cacheName "image", "u"), { status := 200, headers := [], body := [] })]).response
      = some { status := 200, headers := [], body := [] }
    ∧ (doFetch defaultConfig "image/png".toList none "u"
        [((cacheName "image", "u"), { status := 200, headers := [], body := [] })]).networkUsed
      = false :=
  claim_C2 defaultConfig "image/png".toList none "u"
    [((cacheName "image", "u"), { status := 200, headers := [], body := [] })]
    { status := 200, headers := [], body := [] } (by decide) (by decide)

/- ## Claim C3 -/

/-- Claim C3: invariant over all cache-store operations — a non-ok response
is never stored (`addToCache` leaves the cache unchanged), and each of the
content flow, the image/static flow and prefetch preserves "every stored
response is ok". -/
theorem claim_C3 :
    (∀ (cfg : Config) (k u : String) (r : Response) (c : CacheMap),
      r.ok = false → (addToCache cfg k u r c).2 = c)
    ∧ (∀ (cfg : Config) (net : Option Response) (url : String) (c : CacheMap),
      CacheAllOk c → CacheAllOk (contentFlow cfg net url c).cache)
    ∧ (∀ (cfg : Config) (rt : ResourceType) (net : Option Response) (url : String)
        (c : CacheMap), CacheAllOk c → CacheAllOk (defaultFlow cfg rt net url c).cache)
    ∧ (∀ (cfg : Config) (net : String → Option Response) (urls : List String)
        (c : CacheMap), CacheAllOk c → CacheAllOk (prefetch cfg net urls c)) := by
  refine ⟨addToCache_not_ok, ?_, ?_, ?_⟩
  · intro cfg net url c h
    unfold contentFlow
    cases net with
    | some r => exact addToCache_preserves cfg _ url _ c h
    | none =>
      cases hm : cacheMatchUrl c url with
      | some cached => exact h
      | none => exact h
  · intro cfg rt net url c h
    unfold defaultFlow
    cases hm : cacheMatchUrl c url with
    | some cached => exact addToCache_preserves cfg _ url cached c h
    | none =>
      cases net with
      | some r => exact addToCache_preserves cfg _ url r c h
      | none => exact h
  · intro cfg net urls c h
    unfold prefetch
    by_cases hp : cfg.prefetch.enabled = true
    · rw [if_pos hp]
      induction urls generalizing c with
      | nil => exact h
      | cons u rest ih =>
        rw [List.foldl_cons]
        apply ih
        cases hn : net u with
        | some r => exact addToCache_preserves cfg _ u r c h
        | none => exact h
    · rw [if_neg hp]
      exact h

/-- Witness for claim C3: a 404 is not stored by `addToCache`, and the
content flow started from an empty (trivially all-ok) cache keeps the
invariant. -/
theorem claim_C3_witness :
    (addToCache defaultConfig "k" "u" { status := 404, headers := [], body := [] } []).2 = []
    ∧ CacheAllOk (contentFlow defaultConfig
        (some { status := 404, headers := [], body := [] }) "u" []).cache :=
  ⟨claim_C3.1 defaultConfig "k" "u" { status := 404, headers := [], body := [] } [] rfl,
   claim_C3.2.1 defaultConfig (some { status := 404, headers := [], body := [] }) "u" []
     (by intro e he; simp at he)⟩

/- ## Claim C4 -/

/-- Counterexample to claim C4 as stated: a record whose age is exactly
`analytics.maxTime` (default 86400000 ms) is NOT expired by the code — the
strict comparison `queueTime > maxTime` fails, so a network request IS
issued for it (here it even gets deleted because the replay succeeds), while
the claim says a record of age `≥ maxTime` is deleted with no request. -/
theorem claim_C4_counterexample :
    (processRetryRecord defaultConfig 86400000 (fun _ => some 200)
        { url := "u", timestamp := 0 }).request = some "u&qt=86400000"
    ∧ (86400000 : Int) - 0 ≥ defaultConfig.analytics.maxTime := by
  constructor
  · decide
  · decide

/-- Claim C4 (amended): for every stored record, on replay: if the record's
age is strictly greater than `analytics.maxTime` it is deleted with no
network request; if its age is `≤ maxTime` (including exactly `maxTime`) a
request for its URL with `&qt=` and the elapsed queue time appended is
issued, and the record is deleted exactly when that request resolves with a
status below 400 (it stays queued on fetch failure or status ≥ 400). -/
theorem claim_C4 (cfg : Config) (now : Int) (net : String → Option Nat)
    (records : List RetryRecord) (record : RetryRecord) (hmem : record ∈ records) :
    (record, processRetryRecord cfg now net record) ∈ retryAnalyticsRequests cfg now net records
    ∧ (now - record.timestamp > cfg.analytics.maxTime →
        processRetryRecord cfg now net record = { deleted := true, request := none })
    ∧ (now - record.timestamp ≤ cfg.analytics.maxTime →
        (processRetryRecord cfg now net record).request
            = some (record.url ++ "&qt=" ++ toString (now - record.timestamp))
        ∧ ((processRetryRecord cfg now net record).deleted = true
            ↔ ∃ status, net (record.url ++ "&qt=" ++ toString (now - record.timestamp))
                  = some status ∧ status < 400)) := by
  refine ⟨List.mem_map_of_mem _ hmem, ?_, ?_⟩
  · intro hgt
    simp [processRetryRecord, hgt]
  · intro hle
    have hngt : ¬(now - record.timestamp > cfg.analytics.maxTime) := not_lt.mpr hle
    cases hnet : net (record.url ++ "&qt=" ++ toString (now - record.timestamp)) with
    | none =>
      refine ⟨by simp [processRetryRecord, hngt, hnet], ?_⟩
      simp [processRetryRecord, hngt, hnet]
    | some status =>
      have hout : processRetryRecord cfg now net record =
          if 400 ≤ status then
            { deleted := false,
              request := some (record.url ++ "&qt=" ++ toString (now - record.timestamp)) }
          else
            { deleted := true,
              request := some (record.url ++ "&qt=" ++ toString (now - record.timestamp)) } := by
        simp [processRetryRecord, hngt, hnet]
      by_cases hst : 400 ≤ status
      · rw [hout, if_pos hst]
        refine ⟨rfl, ?_⟩
        simp [hnet]
        omega
      · rw [hout, if_neg hst]
        refine ⟨rfl, ?_⟩
        simp [hnet]
        omega

/-- Witness for claim C4: a record of age exactly the default `maxTime` gets
a replay request with the queue time appended. -/
theorem claim_C4_witness :
    (processRetryRecord defaultConfig 86400000 (fun _ => some 204)
        { url := "x", timestamp := 0 }).request = some "x&qt=86400000" :=
  (claim_C4 defaultConfig 86400000 (fun _ => some 204)
      [{ url := "x", timestamp := 0 }] { url := "x", timestamp := 0 }
      (by simp) |>.2.2 (by decide)).1

/- ## Claim C5 -/

/-- Claim C5: with `cache.maxItems = N` and `N + 1` keys in a namespace
(listed in insertion order), trimming leaves exactly `N` keys and removes
the earliest-inserted key (the list's head): the result is the tail of the
key list. -/
theorem claim_C5 (keys : List String) (n : Nat) (h : keys.length = n + 1) :
    trimCache n keys = keys.tail ∧ (trimCache n keys).length = n := by
  match keys with
  | k :: ks =>
    have hlen : ks.length = n := by simpa using h
    have h1 : trimCache n (k :: ks) = trimCache n ks := by
      have hgt : ¬((k :: ks).length ≤ n) := by simp [hlen]
      rw [trimCache, if_neg hgt]
    have h2 : trimCache n ks = ks := by
      cases ks with
      | nil => rfl
      | cons k2 ks2 =>
        have hle : (k2 :: ks2).length ≤ n := le_of_eq hlen
        rw [trimCache, if_pos hle]
    refine ⟨by simpa [h1] using h2, ?_⟩
    rw [h1, h2, hlen]

/-- Witness for claim C5 at a concrete three-key namespace with limit 2. -/
theorem claim_C5_witness :
    trimCache 2 ["a", "b", "c"] = ["b", "c"] ∧ (trimCache 2 ["a", "b", "c"]).length = 2 :=
  claim_C5 ["a", "b", "c"] 2 (by decide)

/- ## Claim C6 -/

/-- Claim C6: a request is eligible for cache handling iff ALL of: its path
is not the worker bootstrap script path `sw.min.js`, its method is GET, its
origin equals the page's origin, no configured `noCachePatterns` pattern
matches its path, and its path is not in the configured `noCacheItems` list
(criteria for absent config fields hold vacuously); so any single failing
criterion disqualifies it. -/
theorem claim_C6 (cfg : Config) (selfOrigin : String) (req : FetchRequest) :
    shouldHandleFetch cfg selfOrigin req = true ↔
      (req.pathname ≠ "sw.min.js" ∧ req.method = "GET" ∧ req.origin = selfOrigin
        ∧ (∀ pats, cfg.cache.noCachePatterns = some pats →
            ∀ p ∈ pats, p req.pathname = false)
        ∧ (∀ items, cfg.cache.noCacheItems = some items → req.pathname ∉ items)) := by
  unfold shouldHandleFetch
  cases hp : cfg.cache.noCachePatterns <;> cases hi : cfg.cache.noCacheItems <;>
    simp [and_assoc, @eq_comm String "sw.min.js" req.pathname,
      @eq_comm String "GET" req.method]

/- ## Merge lemmas (towards claims C7 and C8) -/

/-- Helper: one loop iteration of `mergeFields` is `mergeKey`. -/
theorem mergeFields_cons (tf : List (String × JSVal)) (k : String) (sv : JSVal)
    (rest : List (String × JSVal)) :
    mergeFields tf ((k, sv) :: rest) = mergeFields (mergeKey tf k sv) rest := by
  unfold mergeKey
  by_cases ho : isObject sv = true
  · cases hl : lookupField tf k with
    | none => rw [mergeFields]; simp [mergeVal, ho, hl]
    | some tv =>
      by_cases ht : truthy tv = true <;> (rw [mergeFields]; simp [mergeVal, ho, hl, ht])
  · rw [mergeFields]; simp [mergeVal, ho]

/-- Helper: unfolding `mergeVal` on a non-object source value. -/
theorem mergeVal_not_obj (tv : Option JSVal) (sv : JSVal) (ho : isObject sv = false) :
    mergeVal tv sv = sv := by
  simp [mergeVal, ho]

/-- Helper: unfolding `mergeVal` on an object source value, key absent. -/
theorem mergeVal_none_obj (sv : JSVal) (ho : isObject sv = true) :
    mergeVal none sv = mergeDeep (.vObj []) sv := by
  simp [mergeVal, ho]

/-- Helper: unfolding `mergeVal` on an object source value, key present. -/
theorem mergeVal_some_obj (t sv : JSVal) (ho : isObject sv = true) :
    mergeVal (some t) sv
      = if truthy t = true then mergeDeep t sv else mergeDeep (.vObj []) sv := by
  simp [mergeVal, ho]

/-- Helper: `lookupField` finds the value just set by `setField`. -/
theorem lookup_setField_self (tf : List (String × JSVal)) (k : String) (v : JSVal) :
    lookupField (setField tf k v) k = some v := by
  induction tf with
  | nil => simp [setField, lookupField]
  | cons e rest ih =>
    obtain ⟨ek, ev⟩ := e
    by_cases h : ek = k
    · simp [setField, lookupField, h]
    · simp [setField, lookupField, h, ih]

/-- Helper: `setField` does not disturb other keys. -/
theorem lookup_setField_ne (tf : List (String × JSVal)) (k k' : String) (v : JSVal)
    (hne : k' ≠ k) : lookupField (setField tf k' v) k = lookupField tf k := by
  induction tf with
  | nil => simp [setField, lookupField, hne]
  | cons e rest ih =>
    obtain ⟨ek, ev⟩ := e
    by_cases h : ek = k'
    · simp [setField, lookupField, h, hne]
    · simp [setField, lookupField, h, ih]

/-- Helper: re-setting a key to the value it already holds is a no-op. -/
theorem setField_of_lookup_eq (tf : List (String × JSVal)) (k : String) (v : JSVal)
    (h : lookupField tf k = some v) : setField tf k v = tf := by
  induction tf with
  | nil => simp [lookupField] at h
  | cons e rest ih =>
    obtain ⟨ek, ev⟩ := e
    by_cases hk : ek = k
    · simp [lookupField, hk] at h
      simp [setField, hk, h]
    · simp [lookupField, hk] at h
      simp [setField, hk, ih h]

/-- Helper: `mergeKey` sets the key to `mergeVal` of its old value. -/
theorem lookup_mergeKey_self (tf : List (String × JSVal)) (k : String) (sv : JSVal) :
    lookupField (mergeKey tf k sv) k = some (mergeVal (lookupField tf k) sv) :=
  lookup_setField_self tf k _

/-- Helper: `mergeKey` does not disturb other keys. -/
theorem lookup_mergeKey_ne (tf : List (String × JSVal)) (k k' : String) (sv : JSVal)
    (hne : k' ≠ k) : lookupField (mergeKey tf k' sv) k = lookupField tf k :=
  lookup_setField_ne tf k k' _ hne

/-- Helper: merging fields whose keys avoid `k` does not disturb `k`. -/
theorem lookup_mergeFields_notin (sf : List (String × JSVal)) (k : String)
    (hk : ∀ kv ∈ sf, kv.1 ≠ k) :
    ∀ tf, lookupField (mergeFields tf sf) k = lookupField tf k := by
  induction sf with
  | nil => intro tf; rw [mergeFields]
  | cons e rest ih =>
    obtain ⟨ek, ev⟩ := e
    intro tf
    rw [mergeFields_cons]
    rw [ih (fun kv hkv => hk kv (List.mem_cons_of_mem _ hkv))]
    exact lookup_mergeKey_ne tf k ek ev (hk (ek, ev) (List.mem_cons_self _ _))

/-- Helper: merging an object into a truthy value yields a truthy value. -/
theorem truthy_mergeDeep_obj (t : JSVal) (sf : List (String × JSVal))
    (ht : truthy t = true) : truthy (mergeDeep t (.vObj sf)) = true := by
  cases t <;> simp_all [mergeDeep, truthy]

/-- Helper: the value produced by a merge step with an object source is
truthy. -/
theorem truthy_mergeVal (tv : Option JSVal) (sv : JSVal) (ho : isObject sv = true) :
    truthy (mergeVal tv sv) = true := by
  cases sv <;> simp [isObject] at ho
  case vObj sfields =>
  cases tv with
  | none =>
    rw [mergeVal_none_obj (JSVal.vObj sfields) rfl]
    simp [mergeDeep, truthy]
  | some t =>
    rw [mergeVal_some_obj t (JSVal.vObj sfields) rfl]
    by_cases ht : truthy t = true
    · rw [if_pos ht]; exact truthy_mergeDeep_obj t sfields ht
    · rw [if_neg ht]; simp [mergeDeep, truthy]

/-- Helper: a second merge step over an already-merged value changes
nothing, assuming the merge into the source value is idempotent. -/
theorem mergeVal_idem (tv : Option JSVal) (sv : JSVal)
    (IH : ∀ t, mergeDeep (mergeDeep t sv) sv = mergeDeep t sv) :
    mergeVal (some (mergeVal tv sv)) sv = mergeVal tv sv := by
  by_cases ho : isObject sv = true
  · have htr := truthy_mergeVal tv sv ho
    rw [mergeVal_some_obj _ _ ho, if_pos htr]
    cases tv with
    | none => rw [mergeVal_none_obj _ ho]; exact IH _
    | some t =>
      rw [mergeVal_some_obj _ _ ho]
      by_cases ht : truthy t = true
      · rw [if_pos ht]; exact IH t
      · rw [if_neg ht]; exact IH _
  · have ho' : isObject sv = false := by simpa using ho
    rw [mergeVal_not_obj _ _ ho', mergeVal_not_obj _ _ ho']

/-- Helper: unpacking `keysNodupB` over a cons. -/
theorem keysNodupB_cons (k : String) (v : JSVal) (rest : List (String × JSVal))
    (h : keysNodupB ((k, v) :: rest) = true) :
    (∀ kv ∈ rest, kv.1 ≠ k) ∧ keysNodupB rest = true := by
  simp [keysNodupB] at h
  obtain ⟨h1, h2⟩ := h
  exact ⟨fun kv hkv => h1 kv.1 kv.2 hkv, h2⟩

/-- Helper: unpacking `wfVal` over an object. -/
theorem wfVal_obj (fs : List (String × JSVal)) (h : wfVal (.vObj fs) = true) :
    keysNodupB fs = true ∧ wfFields fs = true := by
  simpa [wfVal, Bool.and_eq_true] using h

/-- Helper: `wfFields` gives well-formedness of every field value. -/
theorem wfFields_mem (fs : List (String × JSVal)) (h : wfFields fs = true) :
    ∀ kv ∈ fs, wfVal kv.2 = true := by
  induction fs with
  | nil => simp
  | cons e rest ih =>
    rw [wfFields, Bool.and_eq_true] at h
    intro kv hkv
    rcases List.mem_cons.mp hkv with heq | hmem
    · subst heq; exact h.1
    · exact ih h.2 kv hmem

/-- Helper: the field-merging loop is idempotent over duplicate-free source
keys, given idempotence of the merge into each source value. -/
theorem mergeFields_idem_aux : ∀ (sf : List (String × JSVal)),
    keysNodupB sf = true →
    (∀ kv ∈ sf, ∀ t, mergeDeep (mergeDeep t kv.2) kv.2 = mergeDeep t kv.2) →
    ∀ tf, mergeFields (mergeFields tf sf) sf = mergeFields tf sf := by
  intro sf
  induction sf with
  | nil => intro _ _ tf; simp [mergeFields]
  | cons e rest ih =>
    obtain ⟨k, sv⟩ := e
    intro hnd IH tf
    obtain ⟨hk, hnd2⟩ := keysNodupB_cons k sv rest hnd
    have IH2 : ∀ kv ∈ rest, ∀ t, mergeDeep (mergeDeep t kv.2) kv.2 = mergeDeep t kv.2 :=
      fun kv hkv => IH kv (List.mem_cons_of_mem _ hkv)
    have hsv : ∀ t, mergeDeep (mergeDeep t sv) sv = mergeDeep t sv :=
      IH (k, sv) (List.mem_cons_self _ _)
    rw [mergeFields_cons tf k sv rest]
    rw [mergeFields_cons (mergeFields (mergeKey tf k sv) rest) k sv rest]
    have hlook : lookupField (mergeFields (mergeKey tf k sv) rest) k
        = some (mergeVal (lookupField tf k) sv) := by
      rw [lookup_mergeFields_notin rest k hk, lookup_mergeKey_self]
    have hmk : mergeKey (mergeFields (mergeKey tf k sv) rest) k sv
        = mergeFields (mergeKey tf k sv) rest := by
      rw [mergeKey, hlook, mergeVal_idem _ _ hsv]
      exact setField_of_lookup_eq _ _ _ hlook
    rw [hmk]
    exact ih hnd2 IH2 (mergeKey tf k sv)

/-- Helper: `mergeDeep` into the same well-formed source twice equals once —
by strong induction on the size of the source value. -/
theorem mergeDeep_idem_aux : ∀ (n : Nat) (o : JSVal), sizeOf o = n → wfVal o = true →
    ∀ t, mergeDeep (mergeDeep t o) o = mergeDeep t o := by
  intro n
  induction n using Nat.strong_induction_on with
  | _ n ihn =>
    intro o hsize hwf t
    cases o with
    | vObj sf =>
      obtain ⟨hnd, hfs⟩ := wfVal_obj sf hwf
      have hmem := wfFields_mem sf hfs
      have IH : ∀ kv ∈ sf, ∀ t2, mergeDeep (mergeDeep t2 kv.2) kv.2 = mergeDeep t2 kv.2 := by
        intro kv hkv t2
        have hsz : sizeOf kv.2 < n := by
          subst hsize
          have h1 := List.sizeOf_lt_of_mem hkv
          have h2 : sizeOf kv.2 < sizeOf kv := by
            obtain ⟨a, b⟩ := kv
            simp only [Prod.mk.sizeOf_spec]
            omega
          have h3 : sizeOf (JSVal.vObj sf) = 1 + sizeOf sf := by simp
          omega
        exact ihn (sizeOf kv.2) hsz kv.2 rfl (hmem kv hkv) t2
      cases t with
      | vObj tf =>
        simp only [mergeDeep]
        exact congrArg JSVal.vObj (mergeFields_idem_aux sf hnd IH tf)
      | vNull => simp [mergeDeep]
      | vBool b => simp [mergeDeep]
      | vNum m => simp [mergeDeep]
      | vStr s => simp [mergeDeep]
      | vArr es => simp [mergeDeep]
    | vNull => cases t <;> simp [mergeDeep]
    | vBool b => cases t <;> simp [mergeDeep]
    | vNum m => cases t <;> simp [mergeDeep]
    | vStr s => cases t <;> simp [mergeDeep]
    | vArr es => cases t <;> simp [mergeDeep]

/-- Helper: `mergeDeep` is idempotent in its second argument for
well-formed (duplicate-free) override objects. -/
theorem mergeDeep_idempotent (target source : JSVal) (hwf : wfVal source = true) :
    mergeDeep (mergeDeep target source) source = mergeDeep target source :=
  mergeDeep_idem_aux (sizeOf source) source rfl hwf target

/-- Helper: an object value is truthy. -/
theorem truthy_of_isObject (t : JSVal) (h : isObject t = true) : truthy t = true := by
  cases t <;> simp_all [isObject, truthy]

/-- Helper: merging into a non-object target returns the target unchanged
(the source's recursive call mutates nothing). -/
theorem mergeDeep_not_obj (t s : JSVal) (h : isObject t = false) : mergeDeep t s = t := by
  cases t <;> cases s <;> simp_all [mergeDeep, isObject]

/-- Helper: a single-key merge as a field update. -/
theorem mergeDeep_single_key (tf : List (String × JSVal)) (k : String) (sv : JSVal) :
    mergeDeep (.vObj tf) (.vObj [(k, sv)])
      = .vObj (setField tf k (mergeVal (lookupField tf k) sv)) := by
  simp only [mergeDeep]
  rw [mergeFields_cons tf k sv [], mergeFields, mergeKey]

/- ## Claim C7 -/

/-- Claim C7: merging the same override twice yields the same effective
configuration as merging it once: `merge(merge(d, o), o) = merge(d, o)`.
The hypothesis `wfVal o` states that the override is a JS runtime value
(object keys are unique at every level, which `Object.keys` guarantees). -/
theorem claim_C7 (defaults override : JSVal) (hwf : wfVal override = true) :
    mergeDeep (mergeDeep defaults override) override = mergeDeep defaults override :=
  mergeDeep_idempotent defaults override hwf

/-- Witness for claim C7 at a concrete defaults/override pair. -/
theorem claim_C7_witness :
    wfVal (JSVal.vObj [("cache", .vObj [("enabled", .vBool false)]), ("version", .vStr "2")])
      = true
    ∧ mergeDeep
        (mergeDeep
          (JSVal.vObj [("cache", .vObj [("enabled", .vBool true), ("maxItems", .vNum 10)])])
          (JSVal.vObj [("cache", .vObj [("enabled", .vBool false)]), ("version", .vStr "2")]))
        (JSVal.vObj [("cache", .vObj [("enabled", .vBool false)]), ("version", .vStr "2")])
      = mergeDeep
          (JSVal.vObj [("cache", .vObj [("enabled", .vBool true), ("maxItems", .vNum 10)])])
          (JSVal.vObj [("cache", .vObj [("enabled", .vBool false)]), ("version", .vStr "2")]) :=
  ⟨by simp [wfVal, wfFields, keysNodupB],
   claim_C7 _ _ (by simp [wfVal, wfFields, keysNodupB])⟩

/- ## Claim C8 -/

/-- Counterexample to claim C8 as stated: with base `{a: 5}` and override
`{a: {}}` — base value a truthy scalar, override value a mapping — the
merge KEEPS the base's `5` (the recursion into a non-object mutates
nothing); the override value `{}` does not replace it, and `5 ≠ {}`. -/
theorem claim_C8_counterexample :
    mergeDeep (.vObj [("a", .vNum 5)]) (.vObj [("a", .vObj [])]) = .vObj [("a", .vNum 5)]
    ∧ JSVal.vNum 5 ≠ JSVal.vObj [] :=
  ⟨by simp [mergeDeep, mergeFields, mergeVal, lookupField, setField, truthy, isObject],
   fun h => JSVal.noConfusion h⟩

/-- Claim C8 (amended): for a key of the override with value `sv`: a
non-mapping `sv` (scalars and arrays alike) replaces the base's value
outright; a mapping `sv` recurses into a mapping base value, is merged into
a fresh empty mapping when the base value is absent or falsy, and — unlike
the claim — leaves the base value unchanged when it is a truthy
non-mapping. -/
theorem claim_C8 (tf : List (String × JSVal)) (k : String) (sv : JSVal) :
    (isObject sv = false →
      mergeDeep (.vObj tf) (.vObj [(k, sv)]) = .vObj (setField tf k sv))
    ∧ (∀ tv, lookupField tf k = some tv → isObject tv = true → isObject sv = true →
      mergeDeep (.vObj tf) (.vObj [(k, sv)]) = .vObj (setField tf k (mergeDeep tv sv)))
    ∧ (lookupField tf k = none → isObject sv = true →
      mergeDeep (.vObj tf) (.vObj [(k, sv)])
        = .vObj (setField tf k (mergeDeep (.vObj []) sv)))
    ∧ (∀ tv, lookupField tf k = some tv → truthy tv = false → isObject sv = true →
      mergeDeep (.vObj tf) (.vObj [(k, sv)])
        = .vObj (setField tf k (mergeDeep (.vObj []) sv)))
    ∧ (∀ tv, lookupField tf k = some tv → truthy tv = true → isObject tv = false →
        isObject sv = true →
      mergeDeep (.vObj tf) (.vObj [(k, sv)]) = .vObj tf) := by
  refine ⟨?_, ?_, ?_, ?_, ?_⟩
  · intro ho
    rw [mergeDeep_single_key, mergeVal_not_obj _ _ ho]
  · intro tv hl hto hso
    rw [mergeDeep_single_key, hl, mergeVal_some_obj _ _ hso,
      if_pos (truthy_of_isObject tv hto)]
  · intro hl hso
    rw [mergeDeep_single_key, hl, mergeVal_none_obj _ hso]
  · intro tv hl htv hso
    rw [mergeDeep_single_key, hl, mergeVal_some_obj _ _ hso,
      if_neg (by simp [htv])]
  · intro tv hl htv hto hso
    rw [mergeDeep_single_key, hl, mergeVal_some_obj _ _ hso, if_pos htv,
      mergeDeep_not_obj tv sv hto]
    rw [setField_of_lookup_eq tf k tv hl]

/-- Witness for claim C8: a truthy string base value survives an
object-valued override at the same key. -/
theorem claim_C8_witness :
    mergeDeep (.vObj [("x", .vStr "hi")]) (.vObj [("x", .vObj [("y", .vNum 1)])])
      = .vObj [("x", .vStr "hi")] :=
  (claim_C8 [("x", .vStr "hi")] "x" (.vObj [("y", .vNum 1)])).2.2.2.2
    (.vStr "hi") (by simp [lookupField]) (by simp [truthy]) rfl rfl

/- ## Claim C9 -/

set_option maxRecDepth 100000 in
/-- Claim C9: `<img data-defer src="a.png" width="10" height="10">` is
rewritten so that its `src` is the generated placeholder data URI (which
starts with `data:image/svg+xml;base64,`) and its `data-defer-src`
attribute is exactly `a.png` (the width and height attributes are kept);
and any img element whose `width="…"` or `height="…"` capture is missing is
returned by the image pass unchanged. -/
theorem claim_C9 :
    changeImages defaultConfig
        "<img data-defer src=\"a.png\" width=\"10\" height=\"10\">".toList
      = "<img data-defer src=\"".toList
        ++ newBase64Image defaultConfig "10".toList "10".toList
        ++ "\" data-defer-src=\"a.png\" width=\"10\" height=\"10\">".toList
    ∧ listStartsWith (newBase64Image defaultConfig "10".toList "10".toList)
        "data:image/svg+xml;base64,".toList = true
    ∧ (∀ img : List Char,
        matchAttrNum widthPat img = none ∨ matchAttrNum heightPat img = none →
        setImage defaultConfig img = img) := by
  refine ⟨by decide, by decide, ?_⟩
  intro img h
  cases hw : matchAttrNum widthPat img with
  | none => simp [setImage, hw]
  | some w =>
    cases hh : matchAttrNum heightPat img with
    | none => simp [setImage, hw, hh]
    | some hv =>
      rcases h with h | h
      · rw [hw] at h; exact absurd h (by simp)
      · rw [hh] at h; exact absurd h (by simp)

/-- Witness for claim C9: an element with no height attribute is returned
unchanged by the image pass. -/
theorem claim_C9_witness :
    setImage defaultConfig "<img data-defer src=\"a.png\" width=\"10\">".toList
      = "<img data-defer src=\"a.png\" width=\"10\">".toList :=
  claim_C9.2.2 "<img data-defer src=\"a.png\" width=\"10\">".toList (Or.inr (by decide))

/- ## Claim C10 -/

/-- Claim C10 (implicit): both rewriting stages rebuild the response with
`new Response(body, { headers })`, whose status is 200 whatever the input
status was — the original status (e.g. a 404 HTML page) is discarded and
the content flow's rewrite step always yields an ok response. -/
theorem claim_C10 (cfg : Config) (r : Response) :
    (deferImages cfg r).status = 200
    ∧ (deferYoutubeVideos cfg r).status = 200
    ∧ (deferImages cfg r).ok = true
    ∧ (deferYoutubeVideos cfg r).ok = true :=
  ⟨rfl, rfl, rfl, rfl⟩

end SW
